import Mathlib

/-!
Verification of the module-export indexer and query operations of the
Endstone MCP server (`endstone_mcp_server.py`).

Python strings are modelled as `List Char`; the relevant `str` methods
(`strip`, `split`, `startswith`, `lower`, `find`, slicing, `in`, `join`,
`replace`) are embedded below, and each server method is translated into a
Lean function over that model.  The module index `self.endstone_modules`
(a Python dict, insertion ordered, unique keys) is modelled as an
association list of (module name, record) pairs.
-/

namespace EndstoneMCP

/-- The double-quote character (Python `'"'`). -/
def dq : Char := Char.ofNat 34

/-- The single-quote character (Python `"'"`). -/
def sq : Char := Char.ofNat 39

/-- Python `str.strip()` whitespace test, for the ASCII whitespace
characters that occur in source files. -/
def pyIsSpace (c : Char) : Bool :=
  c == ' ' || c == '\t' || c == '\n' || c == '\r' || c == '\x0b' || c == '\x0c'

/-- Python `str.strip()`: remove whitespace from both ends. -/
def pyStrip (l : List Char) : List Char :=
  ((l.dropWhile pyIsSpace).reverse.dropWhile pyIsSpace).reverse

/-- Python `str.strip(chars)`: remove any of the given characters from both
ends. -/
def pyStripChars (cs : List Char) (l : List Char) : List Char :=
  ((l.dropWhile (cs.contains ·)).reverse.dropWhile (cs.contains ·)).reverse

/-- Python `str.split(sep)` for a one-character separator: splits at every
occurrence, keeping empty pieces (so `"".split(sep) == [""]`). -/
def pySplit (sep : Char) : List Char → List (List Char)
  | [] => [[]]
  | c :: cs =>
    let r := pySplit sep cs
    if c == sep then [] :: r
    else
      match r with
      | [] => [[c]]
      | h :: t => (c :: h) :: t

/-- Python substring test `pat in l` (contiguous substring). -/
def hasSubstr (pat : List Char) : List Char → Bool
  | [] => pat.isEmpty
  | c :: cs => pat.isPrefixOf (c :: cs) || hasSubstr pat cs

/-- Python `sep.join(parts)`. -/
def pyJoin (sep : List Char) : List (List Char) → List Char
  | [] => []
  | [x] => x
  | x :: y :: ys => x ++ sep ++ pyJoin sep (y :: ys)

/-- Python `str.lower()`, restricted to ASCII case folding (the export
names and queries in scope are ASCII). -/
def pyLower (l : List Char) : List Char :=
  l.map Char.toLower

/-- The export-declaration marker `__all__`. -/
def allMarker : List Char := "__all__".data

/-- One strip/filter step of `_parse_list_items`:
`item.strip().strip(DQUOTE).strip(SQUOTE).strip()`. -/
def pyStripItem (raw : List Char) : List Char :=
  pyStrip (pyStripChars [sq] (pyStripChars [dq] (pyStrip raw)))

/-- `EndstoneMCPServer._parse_list_items`: split on commas, strip
whitespace and quotes, and keep the non-empty pieces that do not start
with `#`. -/
def parseListItems (s : List Char) : List (List Char) :=
  (pySplit ',' s).filterMap (fun raw =>
    let item := pyStripItem raw
    if !item.isEmpty && !(List.isPrefixOf ['#'] item) then some item else none)

/-- One iteration of the `for line in lines` loop of `_extract_exports`:
given the raw line and the current `in_all_block` flag, return the items
this line contributes and the new flag. -/
def processLine (raw : List Char) (inBlock : Bool) : List (List Char) × Bool :=
  let line := pyStrip raw
  if allMarker.isPrefixOf line then
    if line.contains '[' && line.contains ']' then
      let s := List.indexOf '[' line
      let e := List.indexOf ']' line
      (parseListItems ((line.drop (s + 1)).take (e - (s + 1))), false)
    else
      ([], true)
  else if inBlock then
    if line.contains ']' then
      (parseListItems (line.take (List.indexOf ']' line)), false)
    else
      (parseListItems line, true)
  else
    ([], false)

/-- The scanning loop of `_extract_exports` over the list of lines,
threading the `in_all_block` flag and accumulating extracted items. -/
def extractScan : List (List Char) → Bool → List (List Char)
  | [], _ => []
  | l :: ls, b => (processLine l b).1 ++ extractScan ls (processLine l b).2

/-- The value of the `in_all_block` flag after scanning the given lines. -/
def scanState : List (List Char) → Bool → Bool
  | [], b => b
  | l :: ls, b => scanState ls (processLine l b).2

/-- `EndstoneMCPServer._extract_exports`: split the content on newlines and
scan, starting outside any declaration block. -/
def extract_exports (content : List Char) : List (List Char) :=
  extractScan (pySplit '\n' content) false

/-- One entry of `self.endstone_modules`: the per-module dict built by
`_load_endstone_modules` (the raw `content` field is never read by the
query operations, so it is omitted from the record). -/
structure ModuleRecord where
  file_path : List Char
  exports : List (List Char)
deriving DecidableEq

/-- The module index `self.endstone_modules`: a Python dict (insertion
ordered, unique keys) modelled as an association list. -/
abbrev Index := List (List Char × ModuleRecord)

/-- `EndstoneMCPServer._get_module_info`, returning the text of the
produced `TextContent`. -/
def get_module_info (module_name : List Char) (modules : Index) : List Char :=
  if module_name.isEmpty then "Module name is required".data
  else
    match List.lookup module_name modules with
    | some info =>
      let exports := info.exports
      let result := "# ".data ++ module_name ++ "\n\n".data
        ++ "**File:** ".data ++ info.file_path ++ "\n\n".data
        ++ "**Exports:** ".data ++ (Nat.repr exports.length).data ++ " items\n\n".data
      if !exports.isEmpty then
        exports.foldl (fun acc e => acc ++ "- `".data ++ e ++ "`\n".data)
          (result ++ "## Available Exports:\n".data)
      else
        result ++ "No exports found in __all__\n".data
    | none =>
      "Module '".data ++ module_name ++ "' not found. Available modules: ".data
        ++ pyJoin ", ".data (modules.map Prod.fst)

/-- `EndstoneMCPServer._search_exports`, returning the text of the
produced `TextContent`; the nested `for` loops appending to `results` are
mirrored by nested folds. -/
def search_exports (query : List Char) (modules : Index) : List Char :=
  if query.isEmpty then "Search query is required".data
  else
    let query_lower := pyLower query
    let results := modules.foldl (fun acc mi =>
      mi.2.exports.foldl (fun acc2 e =>
        if hasSubstr query_lower (pyLower e) then
          acc2 ++ ["- `".data ++ e ++ "` from `".data ++ mi.1 ++ "`".data]
        else acc2) acc) ([] : List (List Char))
    if !results.isEmpty then
      "# Search Results for '".data ++ query ++ "'\n\n".data ++ pyJoin "\n".data results
    else
      "No exports found matching '".data ++ query ++ "'".data

/-- Python `str.replace(pat, repl)` for a non-empty pattern, replacing
every non-overlapping occurrence left to right (the one call site uses the
fixed pattern `event`; the empty-pattern case never arises). -/
def replaceAll (pat repl : List Char) : List Char → List Char
  | [] => []
  | c :: cs =>
    if h : pat ≠ [] ∧ pat.isPrefixOf (c :: cs) then
      repl ++ replaceAll pat repl ((c :: cs).drop pat.length)
    else
      c :: replaceAll pat repl cs
termination_by l => l.length
decreasing_by
  · have hp : 0 < pat.length := List.length_pos.mpr h.1
    simp only [List.length_drop, List.length_cons]
    omega
  · simp only [List.length_cons]
    omega

/-- Python truthiness of the optional `event_type` argument: `None` and
the empty string are falsy. -/
def pyTruthy : Option (List Char) → Bool
  | none => false
  | some s => !s.isEmpty

/-- `EndstoneMCPServer._get_event_info`, returning the text of the
produced `TextContent`; the listing loop is mirrored by a fold. -/
def get_event_info (event_type : Option (List Char)) (modules : Index) : List Char :=
  match List.lookup "endstone.event".data modules with
  | some info =>
    let events := info.exports
    if pyTruthy event_type then
      let et := event_type.getD []
      if events.contains et then
        "# ".data ++ et ++ "\n\nThis event is available in endstone.event module.\n\n".data
          ++ "## Usage Example:\n\n".data
          ++ "```python\nfrom endstone.event import ".data ++ et ++ ", event_handler\n\n".data
          ++ "@event_handler\n".data
          ++ "def on_".data ++ replaceAll "event".data [] (pyLower et)
          ++ "(self, event: ".data ++ et ++ "):\n".data
          ++ "    # Handle the event\n".data
          ++ "    pass\n```".data
      else
        "Event '".data ++ et ++ "' not found. Available events: ".data
          ++ pyJoin ", ".data (events.filter (fun e => hasSubstr "Event".data e))
    else
      let event_list := events.filter (fun e => hasSubstr "Event".data e)
      event_list.foldl (fun acc e => acc ++ "- `".data ++ e ++ "`\n".data)
        ("# Available Events (".data ++ (Nat.repr event_list.length).data ++ ")\n\n".data)
  | none => "Event module not found".data

/-- The part of the base plugin template before the interpolated plugin
name in `_create_plugin_template`. -/
def baseTemplatePre : List Char :=
  "from endstone.plugin import Plugin\nfrom endstone import Logger\n\nclass ".data

/-- The part of the base plugin template after the interpolated plugin
name in `_create_plugin_template`. -/
def baseTemplatePost : List Char :=
  "Plugin(Plugin):\n    \n    def __init__(self):\n        super().__init__()\n        self.logger: Logger = self.get_logger()\n    \n    def on_enable(self) -> None:\n        \"\"\"Called when the plugin is enabled.\"\"\"\n        self.logger.info(f\"\x7bself.name\x7d v\x7bself.version\x7d has been enabled!\")\n".data

/-- The base template of `_create_plugin_template`, parameterized by the
plugin name. -/
def baseTemplate (plugin_name : List Char) : List Char :=
  baseTemplatePre ++ plugin_name ++ baseTemplatePost

/-- The fragment appended by `_create_plugin_template` when the feature
list contains `events`. -/
def eventsFragment : List Char :=
  "\n        # Register event handlers\n        self.register_events()\n    \n    def register_events(self):\n        \"\"\"Register event handlers.\"\"\"\n        from endstone.event import event_handler, PlayerJoinEvent\n        \n        @event_handler\n        def on_player_join(self, event: PlayerJoinEvent):\n            player = event.player\n            self.logger.info(f\"Player \x7b\x7bplayer.name\x7d\x7d joined the server!\")\n".data

/-- The fragment appended by `_create_plugin_template` when the feature
list contains `commands`. -/
def commandsFragment : List Char :=
  "\n        # Register commands\n        self.register_commands()\n    \n    def register_commands(self):\n        \"\"\"Register custom commands.\"\"\"\n        from endstone.command import Command, CommandExecutor\n        \n        # Example command implementation\n        pass\n".data

/-- The closing fragment always appended by `_create_plugin_template`. -/
def closingFragment : List Char :=
  "\n    \n    def on_disable(self) -> None:\n        \"\"\"Called when the plugin is disabled.\"\"\"\n        self.logger.info(f\"\x7b\x7bself.name\x7d\x7d has been disabled!\")\n".data

/-- `EndstoneMCPServer._create_plugin_template`: the base template, then
the optional fragments guarded by feature membership, then the closing
fragment. -/
def create_plugin_template (plugin_name : List Char) (features : List (List Char)) : List Char :=
  let template := baseTemplate plugin_name
  let template := if features.contains "events".data then template ++ eventsFragment else template
  let template := if features.contains "commands".data then template ++ commandsFragment
    else template
  template ++ closingFragment

/-- `EndstoneMCPServer._generate_plugin_template`, returning the text of
the produced `TextContent`. -/
def generate_plugin_template (plugin_name : List Char) (features : List (List Char)) :
    List Char :=
  if plugin_name.isEmpty then "Plugin name is required".data
  else create_plugin_template plugin_name features

/-- Search results as the specification describes them: iterate modules,
then exports, in index insertion order, keep the exports whose lowercase
form contains the lowercase query, one formatted line per match. -/
def searchMatchesSpec (query : List Char) (modules : Index) : List (List Char) :=
  modules.flatMap (fun mi =>
    (mi.2.exports.filter (fun e => hasSubstr (pyLower query) (pyLower e))).map
      (fun e => "- `".data ++ e ++ "` from `".data ++ mi.1 ++ "`".data))

/-- A small concrete module index used to exercise the query operations
on explicit inputs. -/
def sampleEventRecord : ModuleRecord :=
  { file_path := "reference/endstone/event.py".data,
    exports := ["PlayerJoinEvent".data, "PlayerQuitEvent".data, "event_handler".data] }

/-- A small concrete index with an event module and a form module. -/
def sampleIndex : Index :=
  [("endstone.event".data, sampleEventRecord),
   ("endstone.form".data,
    { file_path := "reference/endstone/form.py".data,
      exports := ["ActionForm".data, "ModalForm".data] })]

theorem pySplit_ne_nil (sep : Char) (l : List Char) : pySplit sep l ≠ [] := by
  induction l with
  | nil => simp [pySplit]
  | cons c cs ih =>
    simp only [pySplit]
    split
    · simp
    · cases h : pySplit sep cs with
      | nil => simp
      | cons h0 t0 => simp [h]

theorem pySplit_append_sep (sep : Char) (xs ys : List Char) :
    pySplit sep (xs ++ sep :: ys) = pySplit sep xs ++ pySplit sep ys := by
  induction xs with
  | nil => simp [pySplit]
  | cons c cs ih =>
    obtain ⟨h0, t0, h⟩ : ∃ h0 t0, pySplit sep cs = h0 :: t0 := by
      cases hc : pySplit sep cs with
      | nil => exact absurd hc (pySplit_ne_nil sep cs)
      | cons a b => exact ⟨a, b, rfl⟩
    simp only [List.cons_append, pySplit, List.append_eq]
    rw [ih, h]
    split
    · simp
    · simp

theorem extractScan_append (l1 l2 : List (List Char)) (b : Bool) :
    extractScan (l1 ++ l2) b = extractScan l1 b ++ extractScan l2 (scanState l1 b) := by
  induction l1 generalizing b with
  | nil => simp [extractScan, scanState]
  | cons l ls ih => simp [extractScan, scanState, ih, List.append_assoc]

theorem extractScan_no_marker (ls : List (List Char))
    (h : ∀ l ∈ ls, allMarker.isPrefixOf (pyStrip l) = false) :
    extractScan ls false = [] := by
  induction ls with
  | nil => rfl
  | cons l rest ih =>
    have hl : allMarker.isPrefixOf (pyStrip l) = false := h l (by simp)
    have hp : processLine l false = ([], false) := by
      simp [processLine, hl]
    simp only [extractScan, hp]
    exact ih (fun x hx => h x (by simp [hx]))

theorem mem_parseListItems (s x : List Char) (hx : x ∈ parseListItems s) :
    x ≠ [] ∧ x.head? ≠ some '#' := by
  simp only [parseListItems, List.mem_filterMap] at hx
  obtain ⟨raw, _, hraw⟩ := hx
  by_cases hc : (!(pyStripItem raw).isEmpty && !(List.isPrefixOf ['#'] (pyStripItem raw))) = true
  · rw [if_pos hc] at hraw
    rw [Bool.and_eq_true] at hc
    obtain ⟨h1, h2⟩ := hc
    have hxe : pyStripItem raw = x := Option.some.inj hraw
    refine ⟨?_, ?_⟩
    · intro hnil
      rw [hxe, hnil] at h1
      simp at h1
    · intro hhead
      rw [hxe] at h2
      cases hl : x with
      | nil => rw [hl] at hhead; simp at hhead
      | cons c t =>
        rw [hl] at hhead
        simp only [List.head?] at hhead
        have hch : c = '#' := by injection hhead
        rw [hl, hch] at h2
        simp [List.isPrefixOf] at h2
  · rw [if_neg hc] at hraw
    exact absurd hraw (by simp)

theorem mem_processLine (l x : List Char) (b : Bool)
    (hx : x ∈ (processLine l b).1) : ∃ s, x ∈ parseListItems s := by
  simp only [processLine] at hx
  split at hx
  · split at hx
    · exact ⟨_, hx⟩
    · simp at hx
  · split at hx
    · split at hx
      · exact ⟨_, hx⟩
      · exact ⟨_, hx⟩
    · simp at hx

theorem mem_extractScan (ls : List (List Char)) (b : Bool) (x : List Char)
    (hx : x ∈ extractScan ls b) : ∃ s, x ∈ parseListItems s := by
  induction ls generalizing b with
  | nil => simp [extractScan] at hx
  | cons l rest ih =>
    simp only [extractScan, List.mem_append] at hx
    rcases hx with hx | hx
    · exact mem_processLine l x b hx
    · exact ih _ hx

theorem isPrefixOf_self (l : List Char) : l.isPrefixOf l = true := by
  induction l with
  | nil => simp [List.isPrefixOf]
  | cons c cs ih => simp [List.isPrefixOf, ih]

theorem isPrefixOf_append_right (pat l r : List Char) (h : pat.isPrefixOf l = true) :
    pat.isPrefixOf (l ++ r) = true := by
  induction pat generalizing l with
  | nil => simp [List.isPrefixOf]
  | cons p ps ih =>
    cases l with
    | nil => simp [List.isPrefixOf] at h
    | cons a as =>
      simp only [List.isPrefixOf, List.cons_append, Bool.and_eq_true] at h ⊢
      exact ⟨h.1, ih as h.2⟩

theorem hasSubstr_nil_pat (l : List Char) : hasSubstr [] l = true := by
  cases l <;> simp [hasSubstr, List.isPrefixOf, List.isEmpty]

theorem hasSubstr_self (l : List Char) : hasSubstr l l = true := by
  cases l with
  | nil => simp [hasSubstr, List.isEmpty]
  | cons c cs => simp [hasSubstr, isPrefixOf_self]

theorem hasSubstr_append_right (pat l r : List Char) (h : hasSubstr pat l = true) :
    hasSubstr pat (l ++ r) = true := by
  induction l with
  | nil =>
    have hp : pat = [] := by
      cases pat with
      | nil => rfl
      | cons c cs => simp [hasSubstr, List.isEmpty] at h
    rw [hp]
    exact hasSubstr_nil_pat _
  | cons c cs ih =>
    simp only [hasSubstr, Bool.or_eq_true] at h
    simp only [List.cons_append, hasSubstr, Bool.or_eq_true]
    rcases h with h | h
    · exact Or.inl (isPrefixOf_append_right pat (c :: cs) r h)
    · exact Or.inr (ih h)

theorem hasSubstr_append_left (pat l r : List Char) (h : hasSubstr pat r = true) :
    hasSubstr pat (l ++ r) = true := by
  induction l with
  | nil => simpa using h
  | cons c cs ih =>
    simp only [List.cons_append, hasSubstr, Bool.or_eq_true]
    exact Or.inr ih

theorem hasSubstr_pyJoin (sep k : List Char) (parts : List (List Char)) (hk : k ∈ parts) :
    hasSubstr k (pyJoin sep parts) = true := by
  induction parts with
  | nil => simp at hk
  | cons p ps ih =>
    cases ps with
    | nil =>
      have hkp : k = p := by simpa using hk
      rw [hkp]
      simpa [pyJoin] using hasSubstr_self p
    | cons q qs =>
      rcases List.mem_cons.mp hk with hkp | hmem
      · rw [hkp]
        simp only [pyJoin]
        rw [List.append_assoc]
        exact hasSubstr_append_right _ _ _ (hasSubstr_self p)
      · simp only [pyJoin]
        rw [List.append_assoc]
        exact hasSubstr_append_left _ _ _ (hasSubstr_append_left _ _ _ (ih hmem))

theorem foldl_append_line (A B : List Char) (l : List (List Char)) (acc : List Char) :
    l.foldl (fun a e => a ++ A ++ e ++ B) acc
      = acc ++ (l.map (fun e => A ++ e ++ B)).flatten := by
  induction l generalizing acc with
  | nil => simp
  | cons e es ih =>
    rw [List.foldl_cons, ih, List.map_cons, List.flatten_cons]
    simp [List.append_assoc]

theorem inner_search_foldl (q m : List Char) (exports : List (List Char))
    (acc : List (List Char)) :
    exports.foldl (fun acc2 e =>
      if hasSubstr q (pyLower e) then
        acc2 ++ ["- `".data ++ e ++ "` from `".data ++ m ++ "`".data]
      else acc2) acc
    = acc ++ (exports.filter (fun e => hasSubstr q (pyLower e))).map
        (fun e => "- `".data ++ e ++ "` from `".data ++ m ++ "`".data) := by
  induction exports generalizing acc with
  | nil => simp
  | cons e es ih =>
    rw [List.foldl_cons, ih, List.filter_cons]
    by_cases h : hasSubstr q (pyLower e) = true
    · simp [h, List.append_assoc]
    · simp [h]

theorem search_results_eq (query : List Char) (modules : Index)
    (acc : List (List Char)) :
    modules.foldl (fun acc mi =>
      mi.2.exports.foldl (fun acc2 e =>
        if hasSubstr (pyLower query) (pyLower e) then
          acc2 ++ ["- `".data ++ e ++ "` from `".data ++ mi.1 ++ "`".data]
        else acc2) acc) acc
      = acc ++ searchMatchesSpec query modules := by
  induction modules generalizing acc with
  | nil => simp [searchMatchesSpec]
  | cons mi ms ih =>
    simp only [List.foldl_cons]
    rw [inner_search_foldl, ih]
    simp [searchMatchesSpec, List.flatMap_cons, List.append_assoc]

/-- Claim C1 counterexample: on a content with two single-line `__all__`
declarations, `extract_exports` returns the entries of both declarations,
not only those of the first one as the claim states. -/
theorem C1_counterexample :
    extract_exports "__all__ = [\"A\"]\n__all__ = [\"B\"]".data = ["A".data, "B".data]
    ∧ ¬ extract_exports "__all__ = [\"A\"]\n__all__ = [\"B\"]".data = ["A".data] :=
  ⟨by decide, by decide⟩

/-- Claim C1 (amended): a later line starting with the `__all__` marker is
processed again even after the first declaration block has been exited: if
the scan of a first portion of the content ends outside a block, the
exports of the concatenation (joined by a newline) are the exports of the
first portion followed by the exports of the second, so a second export
declaration contributes its entries. -/
theorem C1_second_declaration_contributes (a b : List Char)
    (h : scanState (pySplit '\n' a) false = false) :
    extract_exports (a ++ '\n' :: b) = extract_exports a ++ extract_exports b := by
  unfold extract_exports
  rw [pySplit_append_sep, extractScan_append, h]

theorem C1_second_declaration_contributes_witness :
    scanState (pySplit '\n' "__all__ = [\"A\"]".data) false = false
    ∧ extract_exports ("__all__ = [\"A\"]".data ++ '\n' :: "__all__ = [\"B\"]".data)
        = extract_exports "__all__ = [\"A\"]".data ++ extract_exports "__all__ = [\"B\"]".data :=
  ⟨by decide, C1_second_declaration_contributes _ _ (by decide)⟩

/-- Claim C2: `extract_exports` satisfies the two reference examples of the
specification: the one-line declaration yields exactly the ordered list
A, B, C and the four-line block form yields exactly X, Y. -/
theorem C2_reference_examples :
    extract_exports "__all__ = [\"A\", \"B\", \"C\"]".data = ["A".data, "B".data, "C".data]
    ∧ extract_exports "__all__ = [\n    \"X\",\n    \"Y\",\n]".data = ["X".data, "Y".data] :=
  ⟨by decide, by decide⟩

/-- Claim C3: every element of the list returned by `extract_exports` is a
non-empty string whose first character is not the comment marker `#`. -/
theorem C3_export_name_invariant (content x : List Char)
    (hx : x ∈ extract_exports content) :
    x ≠ [] ∧ x.head? ≠ some '#' := by
  obtain ⟨s, hs⟩ := mem_extractScan _ _ _ hx
  exact mem_parseListItems s x hs

theorem C3_export_name_invariant_witness :
    "A".data ∈ extract_exports "__all__ = [\"A\"]".data
    ∧ ("A".data ≠ [] ∧ List.head? "A".data ≠ some '#') :=
  ⟨by decide, C3_export_name_invariant "__all__ = [\"A\"]".data "A".data (by decide)⟩

/-- Claim C4: `extract_exports` is a total function (it returns a list on
every input by construction), and any content none of whose stripped lines
starts with the `__all__` marker yields the empty list. -/
theorem C4_no_marker_yields_empty (content : List Char)
    (h : ∀ l ∈ pySplit '\n' content, allMarker.isPrefixOf (pyStrip l) = false) :
    extract_exports content = [] :=
  extractScan_no_marker _ h

theorem C4_no_marker_yields_empty_witness :
    (∀ l ∈ pySplit '\n' "import os\nx = 1".data,
      allMarker.isPrefixOf (pyStrip l) = false)
    ∧ extract_exports "import os\nx = 1".data = [] :=
  ⟨by decide, C4_no_marker_yields_empty _ (by decide)⟩

/-- Claim C9: each operation with a required argument answers the empty
argument with a plain "required" text message: `get_module_info`,
`search_exports` and `generate_plugin_template` all return their
respective required-argument message (they are total functions, so no
failure can propagate). -/
theorem C9_required_argument_messages (modules : Index) (features : List (List Char)) :
    get_module_info [] modules = "Module name is required".data
    ∧ search_exports [] modules = "Search query is required".data
    ∧ generate_plugin_template [] features = "Plugin name is required".data :=
  ⟨rfl, rfl, rfl⟩

theorem contains_iff_mem (fs : List (List Char)) (x : List Char) :
    fs.contains x = true ↔ x ∈ fs := by
  constructor
  · intro hx
    exact List.elem_iff.mp hx
  · intro hx
    exact List.elem_iff.mpr hx

/-- Claim C5: for a non-empty query, `search_exports` returns one
formatted line per export (iterating modules then exports in index order)
whose lowercased name contains the lowercased query, joined by newlines
under a header; when nothing matches it returns the distinct no-matches
message, and in either case the result is not empty. -/
theorem C5_case_insensitive_search (query : List Char) (modules : Index)
    (h : query ≠ []) :
    search_exports query modules =
      (if searchMatchesSpec query modules = [] then
        "No exports found matching '".data ++ query ++ "'".data
      else
        "# Search Results for '".data ++ query ++ "'\n\n".data
          ++ pyJoin "\n".data (searchMatchesSpec query modules))
    ∧ search_exports query modules ≠ [] := by
  have hq : query.isEmpty = false := by
    cases query with
    | nil => exact absurd rfl h
    | cons c cs => rfl
  have base : search_exports query modules =
      (if (searchMatchesSpec query modules).isEmpty = true then
        "No exports found matching '".data ++ query ++ "'".data
      else
        "# Search Results for '".data ++ query ++ "'\n\n".data
          ++ pyJoin "\n".data (searchMatchesSpec query modules)) := by
    simp only [search_exports, hq, Bool.false_eq_true, if_false]
    rw [search_results_eq]
    simp only [List.nil_append]
    by_cases hsp : (searchMatchesSpec query modules).isEmpty = true
    · simp [hsp]
    · simp [hsp]
  constructor
  · rw [base]
    by_cases hsp : searchMatchesSpec query modules = []
    · simp [hsp]
    · have hie : (searchMatchesSpec query modules).isEmpty = false := by
        cases hsp2 : searchMatchesSpec query modules with
        | nil => exact absurd hsp2 hsp
        | cons a as => rfl
      simp [hie, hsp]
  · rw [base]
    by_cases hsp : (searchMatchesSpec query modules).isEmpty = true
    · simp [hsp]
    · simp [hsp]

theorem C5_case_insensitive_search_witness :
    "form".data ≠ []
    ∧ (search_exports "form".data sampleIndex =
        (if searchMatchesSpec "form".data sampleIndex = [] then
          "No exports found matching '".data ++ "form".data ++ "'".data
        else
          "# Search Results for '".data ++ "form".data ++ "'\n\n".data
            ++ pyJoin "\n".data (searchMatchesSpec "form".data sampleIndex))
      ∧ search_exports "form".data sampleIndex ≠ []) :=
  ⟨by decide, C5_case_insensitive_search "form".data sampleIndex (by decide)⟩

/-- Claim C6: for a non-empty module name that is not a key of the index,
`get_module_info` returns the not-found message, which contains a
"not found" indicator and, for every known module name, that name
(all of them joined by the comma separator); being a total function it
raises nothing. -/
theorem C6_not_found_lists_modules (module_name k : List Char) (modules : Index)
    (h1 : module_name ≠ []) (h2 : List.lookup module_name modules = none)
    (hk : k ∈ modules.map Prod.fst) :
    get_module_info module_name modules =
      "Module '".data ++ module_name ++ "' not found. Available modules: ".data
        ++ pyJoin ", ".data (modules.map Prod.fst)
    ∧ hasSubstr "not found".data (get_module_info module_name modules) = true
    ∧ hasSubstr k (get_module_info module_name modules) = true := by
  have hq : module_name.isEmpty = false := by
    cases module_name with
    | nil => exact absurd rfl h1
    | cons c cs => rfl
  have key : get_module_info module_name modules =
      "Module '".data ++ module_name ++ "' not found. Available modules: ".data
        ++ pyJoin ", ".data (modules.map Prod.fst) := by
    simp only [get_module_info, hq, Bool.false_eq_true, if_false, h2]
  refine ⟨key, ?_, ?_⟩
  · rw [key, List.append_assoc, List.append_assoc]
    exact hasSubstr_append_left _ _ _ (hasSubstr_append_left _ _ _
      (hasSubstr_append_right _ _ _ (by decide)))
  · rw [key, List.append_assoc, List.append_assoc]
    exact hasSubstr_append_left _ _ _ (hasSubstr_append_left _ _ _
      (hasSubstr_append_left _ _ _ (hasSubstr_pyJoin _ _ _ hk)))

theorem C6_not_found_lists_modules_witness :
    "nope.module".data ≠ []
    ∧ List.lookup "nope.module".data sampleIndex = none
    ∧ "endstone.form".data ∈ sampleIndex.map Prod.fst
    ∧ (get_module_info "nope.module".data sampleIndex =
        "Module '".data ++ "nope.module".data
          ++ "' not found. Available modules: ".data
          ++ pyJoin ", ".data (sampleIndex.map Prod.fst)
      ∧ hasSubstr "not found".data (get_module_info "nope.module".data sampleIndex) = true
      ∧ hasSubstr "endstone.form".data
          (get_module_info "nope.module".data sampleIndex) = true) :=
  ⟨by decide, by decide, by decide,
    C6_not_found_lists_modules "nope.module".data "endstone.form".data sampleIndex
      (by decide) (by decide) (by decide)⟩

theorem create_plugin_template_eq (plugin_name : List Char) (features : List (List Char)) :
    create_plugin_template plugin_name features =
      baseTemplate plugin_name
        ++ (if "events".data ∈ features then eventsFragment else [])
        ++ (if "commands".data ∈ features then commandsFragment else [])
        ++ closingFragment := by
  have b1 := contains_iff_mem features "events".data
  have b2 := contains_iff_mem features "commands".data
  by_cases e1 : "events".data ∈ features <;> by_cases e2 : "commands".data ∈ features <;>
    simp [create_plugin_template, e1, e2, b1, b2, List.append_assoc]

/-- Claim C7: for a non-empty plugin name, the generated template is the
base template parameterized by the name, then the events fragment exactly
when the `events` flag is present, then the commands fragment exactly when
the `commands` flag is present (events always before commands), then the
closing fragment; two feature lists agreeing on those two memberships
produce the same template, so unrecognized flags have no effect. -/
theorem C7_feature_flags (plugin_name : List Char) (features features2 : List (List Char))
    (h : plugin_name ≠ [])
    (he : ("events".data ∈ features2) ↔ ("events".data ∈ features))
    (hc : ("commands".data ∈ features2) ↔ ("commands".data ∈ features)) :
    generate_plugin_template plugin_name features =
      baseTemplate plugin_name
        ++ (if "events".data ∈ features then eventsFragment else [])
        ++ (if "commands".data ∈ features then commandsFragment else [])
        ++ closingFragment
    ∧ generate_plugin_template plugin_name features2
        = generate_plugin_template plugin_name features := by
  have hq : plugin_name.isEmpty = false := by
    cases plugin_name with
    | nil => exact absurd rfl h
    | cons c cs => rfl
  have g1 : generate_plugin_template plugin_name features
      = create_plugin_template plugin_name features := by
    simp only [generate_plugin_template, hq, Bool.false_eq_true, if_false]
  have g2 : generate_plugin_template plugin_name features2
      = create_plugin_template plugin_name features2 := by
    simp only [generate_plugin_template, hq, Bool.false_eq_true, if_false]
  refine ⟨?_, ?_⟩
  · rw [g1, create_plugin_template_eq]
  · rw [g1, g2, create_plugin_template_eq, create_plugin_template_eq]
    simp only [he, hc]

theorem C7_feature_flags_witness :
    "Foo".data ≠ []
    ∧ (("events".data ∈ ["events".data, "commands".data, "permissions".data])
        ↔ ("events".data ∈ ["commands".data, "events".data]))
    ∧ (("commands".data ∈ ["events".data, "commands".data, "permissions".data])
        ↔ ("commands".data ∈ ["commands".data, "events".data]))
    ∧ (generate_plugin_template "Foo".data ["commands".data, "events".data] =
        baseTemplate "Foo".data
          ++ (if "events".data ∈ ["commands".data, "events".data] then eventsFragment else [])
          ++ (if "commands".data ∈ ["commands".data, "events".data] then commandsFragment
            else [])
          ++ closingFragment
      ∧ generate_plugin_template "Foo".data
            ["events".data, "commands".data, "permissions".data]
          = generate_plugin_template "Foo".data ["commands".data, "events".data]) :=
  ⟨by decide, by decide, by decide,
    C7_feature_flags "Foo".data ["commands".data, "events".data]
      ["events".data, "commands".data, "permissions".data]
      (by decide) (by decide) (by decide)⟩

theorem get_event_info_none_eq (modules : Index) (info : ModuleRecord)
    (h : List.lookup "endstone.event".data modules = some info) :
    get_event_info none modules =
      "# Available Events (".data
        ++ (Nat.repr (List.length
              (info.exports.filter (fun e => hasSubstr "Event".data e)))).data
        ++ ")\n\n".data
        ++ ((info.exports.filter (fun e => hasSubstr "Event".data e)).map
              (fun e => "- `".data ++ e ++ "`\n".data)).flatten := by
  simp only [get_event_info, h, pyTruthy, Bool.false_eq_true, if_false]
  rw [foldl_append_line "- `".data "`\n".data]

/-- Claim C8: when the event module is in the index and `event_type` is
omitted, `get_event_info` returns the count header whose number is the
length of the list of exports containing "Event", followed by exactly the
listing of those exports. -/
theorem C8_event_count_listing (modules : Index) (info : ModuleRecord)
    (h : List.lookup "endstone.event".data modules = some info) :
    get_event_info none modules =
      "# Available Events (".data
        ++ (Nat.repr (List.length
              (info.exports.filter (fun e => hasSubstr "Event".data e)))).data
        ++ ")\n\n".data
        ++ ((info.exports.filter (fun e => hasSubstr "Event".data e)).map
              (fun e => "- `".data ++ e ++ "`\n".data)).flatten :=
  get_event_info_none_eq modules info h

theorem C8_event_count_listing_witness :
    List.lookup "endstone.event".data sampleIndex = some sampleEventRecord
    ∧ get_event_info none sampleIndex =
        "# Available Events (".data
          ++ (Nat.repr (List.length
                (sampleEventRecord.exports.filter (fun e => hasSubstr "Event".data e)))).data
          ++ ")\n\n".data
          ++ ((sampleEventRecord.exports.filter (fun e => hasSubstr "Event".data e)).map
                (fun e => "- `".data ++ e ++ "`\n".data)).flatten :=
  ⟨by decide, C8_event_count_listing sampleIndex sampleEventRecord (by decide)⟩

/-- Claim C10: when the event module is in the index, the empty string as
`event_type` behaves exactly like omitting it: the result equals the
omitted-argument result, namely the count header and the listing of the
exports containing "Event" (so neither the per-event description nor the
event-not-found message is produced). -/
theorem C10_empty_event_type_lists (modules : Index) (info : ModuleRecord)
    (h : List.lookup "endstone.event".data modules = some info) :
    get_event_info (some []) modules = get_event_info none modules
    ∧ get_event_info (some []) modules =
        "# Available Events (".data
          ++ (Nat.repr (List.length
                (info.exports.filter (fun e => hasSubstr "Event".data e)))).data
          ++ ")\n\n".data
          ++ ((info.exports.filter (fun e => hasSubstr "Event".data e)).map
                (fun e => "- `".data ++ e ++ "`\n".data)).flatten := by
  have heq : get_event_info (some []) modules = get_event_info none modules := by
    simp only [get_event_info, h, pyTruthy, List.isEmpty_nil, Bool.not_true,
      Bool.false_eq_true, if_false]
  exact ⟨heq, heq.trans (get_event_info_none_eq modules info h)⟩

theorem C10_empty_event_type_lists_witness :
    List.lookup "endstone.event".data sampleIndex = some sampleEventRecord
    ∧ (get_event_info (some []) sampleIndex = get_event_info none sampleIndex
      ∧ get_event_info (some []) sampleIndex =
          "# Available Events (".data
            ++ (Nat.repr (List.length
                  (sampleEventRecord.exports.filter (fun e => hasSubstr "Event".data e)))).data
            ++ ")\n\n".data
            ++ ((sampleEventRecord.exports.filter (fun e => hasSubstr "Event".data e)).map
                  (fun e => "- `".data ++ e ++ "`\n".data)).flatten) :=
  ⟨by decide, C10_empty_event_type_lists sampleIndex sampleEventRecord (by decide)⟩

end EndstoneMCP
